import Mathlib

/-!
Shallow embedding of `lorifier.py`, a mutt display filter that adds an
`X-Date` header (the `Date` header converted to local time) and an `X-URI`
header (a lore.kernel.org archive link derived from `Message-ID` and the
recipient addresses), following the source file line by line.

A message is modelled by its ordered header list (the Python
`Message._headers` list of name/value pairs); the body plays no role in any
of the header transformations and is omitted.  Python strings are modelled
by Lean `String` (logically a list of characters), and the handful of
`str` methods the script uses (`lower`, `endswith`, slicing) are given
explicit character-list models below.  The date functions from
`email.utils` (`parsedate_tz`/`mktime_tz`/`formatdate`) are standard
library code, not part of this repository; they are modelled at the
granularity of the timestamps they denote: a parsed date is a pair
(wall-clock seconds, zone offset) and `mktime_tz` subtracts the offset to
obtain the absolute epoch instant.  The text parser and formatter
themselves are passed in as parameters.
-/

set_option autoImplicit false

namespace Lorifier

/-- A header is a (name, value) pair, as stored in `Message._headers`. -/
abbrev Header := String × String

/-- A message, modelled by its ordered header list. -/
abbrev Message := List Header

/-- Models Python `str.lower` (applied only to ASCII header names here). -/
def lowerName (s : String) : String := String.mk (s.data.map Char.toLower)

/-- Models `Message.get(name, None)`: the value of the first header whose
name matches case-insensitively, or `none`. -/
def getHeader (m : Message) (name : String) : Option String :=
  (m.find? (fun h => lowerName h.1 == lowerName name)).map (fun h => h.2)

/-- Models `Message.get_all(name, [])`: the values of all headers whose
name matches case-insensitively, in order. -/
def getAllHeaders (m : Message) (name : String) : List String :=
  (m.filter (fun h => lowerName h.1 == lowerName name)).map (fun h => h.2)

/-- Models `Message.add_header(name, value)`: append at the end. -/
def addHeader (m : Message) (name val : String) : Message :=
  m ++ [(name, val)]

/-- Number of headers with the given name (case-insensitive). -/
def countHeader (m : Message) (name : String) : Nat :=
  (m.filter (fun h => lowerName h.1 == lowerName name)).length

/-- Models Python `s[1:-1]`: drop the first and the last character,
unconditionally (empty results for strings of length at most 2). -/
def sliceInner (s : String) : String := String.mk ((s.data.drop 1).dropLast)

/-- Models Python `str.endswith`. -/
def pyEndswith (s suf : String) : Bool := suf.data.isSuffixOf s.data

/-- Models Python `s[:-n]`: drop the last `n` characters. -/
def pyDropRight (s : String) (n : Nat) : String :=
  String.mk (s.data.take (s.data.length - n))

/-! ### Models of the `email.utils` address helpers

`email.utils.getaddresses` is standard-library code; it is modelled here
for the address forms this filter meets: comma-separated addresses, each
either bare or in display-name angle-bracket form. -/

/-- Split a character list at commas (models the comma-separated address
list structure of a `To`/`Cc` header value). -/
def splitCommaAux : List Char → List Char → List (List Char)
  | [], acc => [acc.reverse]
  | c :: cs, acc =>
    if c = ',' then acc.reverse :: splitCommaAux cs []
    else splitCommaAux cs (c :: acc)

/-- Strip leading and trailing spaces. -/
def trimSpaces (l : List Char) : List Char :=
  ((l.dropWhile (fun c => c = ' ')).reverse.dropWhile (fun c => c = ' ')).reverse

/-- Extract the address from one comma-separated component: the text
between angle brackets when present, the trimmed text otherwise. -/
def extractAddr (l : List Char) : List Char :=
  if l.contains '<' then
    ((l.dropWhile (fun c => c ≠ '<')).drop 1).takeWhile (fun c => c ≠ '>')
  else trimSpaces l

/-- Models `email.utils.getaddresses(vals)`, keeping only the address part
of each parsed (name, address) pair, in order. -/
def getaddresses (vals : List String) : List String :=
  (vals.map (fun v => (splitCommaAux v.data []).map (fun a => String.mk (extractAddr a)))).flatten

/-! ### The date model -/

/-- Models `email.utils.mktime_tz`: a parsed date is (wall-clock seconds,
zone offset in seconds), and the absolute epoch instant is their
difference. -/
def mktime_tz (p : Int × Int) : Int := p.1 - p.2

/-- The literal diagnostic value written by the `except` branch of
`create_xdate_header` (models the Python f-string `Error: ...` rendering
of the `TypeError` that `mktime_tz(None)` raises on an unparseable
date). -/
def xdateErrVal : String := "Error: NoneType object is not subscriptable"

/-- Models `muttemail.create_xdate_header` (lines 50-61).  `pdate` models
`parsedate_tz` composed with the tuple-to-timestamp reading (`none` for an
unparseable date, which in the source makes `mktime_tz` raise the
`TypeError` caught by the `except` branch); `fdate` models
`formatdate(·, localtime=True)`.  `if not date` is the none-or-empty
check. -/
def create_xdate_header (pdate : String → Option (Int × Int))
    (fdate : Int → String) (m : Message) : Message :=
  match getHeader m "Date" with
  | none => m
  | some d =>
    if d = "" then m
    else
      match pdate d with
      | some tz => addHeader m "X-Date" (fdate (mktime_tz tz))
      | none => addHeader m "X-Date" xdateErrVal

/-! ### The X-URI generator -/

/-- The archive link format (line 29): base URL with trailing slash. -/
def LORE_FMT (ml mid : String) : String :=
  "https://lore.kernel.org/" ++ ml ++ "/" ++ mid ++ "/"

/-- The explicit mapping table (lines 30-32). -/
def LORE_MLS : List (String × String) := [("qemu-devel@nongnu.org", "qemu-devel")]

/-- Models `LORE_MLS.get(recipient)`. -/
def loreMlsGet (r : String) : Option String :=
  (LORE_MLS.find? (fun p => p.1 == r)).map (fun p => p.2)

/-- The archive domain suffix checked on line 90. -/
def vgerSuffix : String := "@vger.kernel.org"

/-- The `mailing_list` computation of the loop body (lines 89-91): the
explicit table first, else the suffix-stripped address when it ends in
the vger domain, else nothing. -/
def resolveList (r : String) : Option String :=
  match loreMlsGet r with
  | some ml => some ml
  | none =>
    if pyEndswith r vgerSuffix then some (pyDropRight r vgerSuffix.length)
    else none

/-- One iteration of the recipient loop (lines 88-97): when the resolved
mailing list is truthy (non-empty), append an `X-URI` header built from
the list name and `message_id[1:-1]`. -/
def xuriStep (mid : String) (acc : Message) (r : String) : Message :=
  match resolveList r with
  | some ml =>
    if ml ≠ "" then addHeader acc "X-URI" (LORE_FMT ml (sliceInner mid))
    else acc
  | none => acc

/-- Models `muttemail.create_xuri_header` (lines 71-97).  `if not
message_id` is the none-or-empty check; recipients are gathered from all
`To` headers then all `Cc` headers; the loop appends one header per
matching recipient (the source has no `break`). -/
def create_xuri_header (m : Message) : Message :=
  match getHeader m "Message-ID" with
  | none => m
  | some mid =>
    if mid = "" then m
    else
      (getaddresses (getAllHeaders m "To" ++ getAllHeaders m "Cc")).foldl
        (xuriStep mid) m

/-! ### The header remover -/

/-- Models `del self.message._headers[i]`. -/
def removeAt (l : Message) (i : Nat) : Message := l.take i ++ l.drop (i + 1)

/-- The loop of `remove_header` (lines 66-69): indices are visited from
`len - 1` down to `0`; at each index the header is deleted when its
lowered name equals the lowered argument. -/
def removeHeaderLoop (hname : String) : Nat → Message → Message
  | 0, hs => hs
  | i + 1, hs =>
    removeHeaderLoop hname i
      (match hs.get? i with
       | some h => if lowerName h.1 == lowerName hname then removeAt hs i else hs
       | none => hs)

/-- Models `muttemail.remove_header` (lines 64-69). -/
def remove_header (m : Message) (hname : String) : Message :=
  removeHeaderLoop hname m.length m

/-! ### The main pipeline -/

/-- Models the `__main__` block (lines 100-106): parse, add `X-Date`, add
`X-URI`, serialize.  The `remove_header("Message-ID")` call on line 104 is
commented out in the source, so no removal step runs. -/
def mainTransform (pdate : String → Option (Int × Int))
    (fdate : Int → String) (m : Message) : Message :=
  create_xuri_header (create_xdate_header pdate fdate m)

/-- Header rendering of `as_bytes`: one `name: value` line per header, in
order. -/
def serializeHeaders (m : Message) : List String :=
  m.map (fun h => h.1 ++ ": " ++ h.2)

/-! ### Helper lemmas -/

theorem mk_data (s : String) : String.mk s.data = s := rfl

theorem data_bracketed (t : String) :
    ("<" ++ t ++ ">").data = '<' :: (t.data ++ ['>']) := by
  rw [String.data_append, String.data_append]
  rfl

/-- Python slicing `s[1:-1]` undoes angle-bracket wrapping. -/
theorem sliceInner_bracketed (t : String) : sliceInner ("<" ++ t ++ ">") = t := by
  unfold sliceInner
  rw [data_bracketed]
  simp [List.dropLast_concat, mk_data]

/-- When `s` ends with `suf`, dropping `suf.length` characters from the
right yields the prefix that `suf` completes back to `s`. -/
theorem pyEndswith_append (s suf : String) (h : pyEndswith s suf = true) :
    pyDropRight s suf.length ++ suf = s := by
  have hsuf : suf.data <:+ s.data := List.isSuffixOf_iff_suffix.mp h
  have heq := List.suffix_iff_eq_append.mp hsuf
  obtain ⟨ls⟩ := s
  obtain ⟨lf⟩ := suf
  exact congrArg String.mk heq

/-- The headers appended by the recipient loop: one `X-URI` link per
recipient whose resolved mailing list is non-empty, in recipient order. -/
def xuriLinks (mid : String) (rs : List String) : Message :=
  rs.filterMap (fun r =>
    match resolveList r with
    | some ml =>
      if ml ≠ "" then some ("X-URI", LORE_FMT ml (sliceInner mid)) else none
    | none => none)

theorem xuriStep_eq (mid : String) (m : Message) (r : String) :
    xuriStep mid m r = m ++ xuriLinks mid [r] := by
  unfold xuriStep xuriLinks
  rw [List.filterMap_cons]
  cases hres : resolveList r with
  | none => simp
  | some ml => by_cases hml : ml = "" <;> simp [hml, addHeader]

theorem xuriLinks_cons (mid r : String) (rs : List String) :
    xuriLinks mid (r :: rs) = xuriLinks mid [r] ++ xuriLinks mid rs := by
  unfold xuriLinks
  rw [List.filterMap_cons, List.filterMap_cons, List.filterMap_nil]
  cases hres : resolveList r with
  | none => simp
  | some ml => by_cases hml : ml = "" <;> simp [hml]

theorem foldl_xuriStep (mid : String) (rs : List String) :
    ∀ m : Message, rs.foldl (xuriStep mid) m = m ++ xuriLinks mid rs := by
  induction rs with
  | nil => intro m; simp [xuriLinks]
  | cons r rs ih =>
    intro m
    rw [List.foldl_cons, ih, xuriStep_eq, List.append_assoc, ← xuriLinks_cons]

/-- The reversed index-deletion loop of `remove_header` agrees with
filtering the first `k` headers. -/
theorem removeHeaderLoop_spec (hname : String) :
    ∀ (k : Nat) (hs : Message), k ≤ hs.length →
      removeHeaderLoop hname k hs =
        (hs.take k).filter (fun h => !(lowerName h.1 == lowerName hname)) ++
          hs.drop k := by
  intro k
  induction k with
  | zero => intro hs _; simp [removeHeaderLoop]
  | succ k ih =>
    intro hs hk
    have hlt : k < hs.length := Nat.lt_of_succ_le hk
    have hget : hs.get? k = some hs[k] := by
      rw [List.get?_eq_get hlt]
      rfl
    have htake : hs.take (k + 1) =
        hs.take k ++ [hs[k]] := by
      rw [List.take_succ]
      simp [List.getElem?_eq_getElem hlt]
    have hstep : removeHeaderLoop hname (k + 1) hs =
        removeHeaderLoop hname k
          (if (lowerName (hs[k]).1 == lowerName hname) = true
           then removeAt hs k else hs) := by
      rw [removeHeaderLoop, hget]
    rw [hstep]
    by_cases hmatch : (lowerName (hs[k]).1 == lowerName hname) = true
    · have hlen : (removeAt hs k).length = hs.length - 1 := by
        unfold removeAt
        rw [List.length_append, List.length_take, List.length_drop]
        omega
      have hk' : k ≤ (removeAt hs k).length := by omega
      rw [if_pos hmatch, ih (removeAt hs k) hk']
      have htk : (removeAt hs k).take k = hs.take k := by
        unfold removeAt
        apply List.take_left'
        rw [List.length_take]
        omega
      have hdk : (removeAt hs k).drop k = hs.drop (k + 1) := by
        unfold removeAt
        apply List.drop_left'
        rw [List.length_take]
        omega
      rw [htk, hdk, htake, List.filter_append]
      simp [hmatch]
    · rw [if_neg hmatch, ih hs (Nat.le_of_lt hlt)]
      rw [htake, List.filter_append, List.drop_eq_getElem_cons hlt]
      simp [hmatch]

/-! ### The claims -/

/-- C1: the claim that the identifier header is absent from the serialized
output after the full transformation fails on the code: the
`remove_header("Message-ID")` call on line 104 of the source is commented
out, so the pipeline run by `__main__` (parse, add X-Date, add X-URI,
serialize) keeps the Message-ID header.  Evaluated here at a concrete
message carrying one: the identifier header is still present, and its
rendered line still appears in the serialized output. -/
theorem c1_messageId_retained :
    getHeader (mainTransform (fun _ => none) (fun _ => "")
      [("Message-ID", "<x@y>")]) "Message-ID" = some "<x@y>" ∧
    "Message-ID: <x@y>" ∈ serializeHeaders (mainTransform (fun _ => none)
      (fun _ => "") [("Message-ID", "<x@y>")]) := by
  decide

/-- C2 counterexample: the recipient loop of `create_xuri_header` has no
break, so a message with two recipients on the vger domain gets two X-URI
headers, refuting "at most one archive-link header is added". -/
theorem c2_two_xuri_headers :
    countHeader (create_xuri_header
      [("Message-ID", "<i@d>"), ("To", "a@vger.kernel.org,b@vger.kernel.org")])
      "X-URI" = 2 := by
  decide

/-- C2 (amended): for a message with a non-empty identifier header,
`create_xuri_header` appends one X-URI header per recipient address whose
resolved mailing-list name is non-empty, in the order addresses appear
across To then Cc; when exactly one recipient resolves, exactly one header
is added, but every further matching recipient adds another. -/
theorem c2_link_per_matching_recipient (m : Message) (mid : String)
    (h1 : getHeader m "Message-ID" = some mid) (h2 : ¬mid = "") :
    create_xuri_header m =
      m ++ xuriLinks mid
        (getaddresses (getAllHeaders m "To" ++ getAllHeaders m "Cc")) := by
  have hstep : create_xuri_header m =
      if mid = "" then m
      else (getaddresses (getAllHeaders m "To" ++ getAllHeaders m "Cc")).foldl
        (xuriStep mid) m := by
    unfold create_xuri_header
    rw [h1]
  rw [hstep, if_neg h2, foldl_xuriStep]

/-- C2 witness: a message with one table-matching To recipient and one
non-matching Cc recipient gets exactly the one corresponding link. -/
theorem c2_link_per_matching_recipient_witness :
    create_xuri_header
      [("Message-ID", "<i@d>"), ("To", "qemu-devel@nongnu.org"), ("Cc", "x@y")] =
      [("Message-ID", "<i@d>"), ("To", "qemu-devel@nongnu.org"), ("Cc", "x@y"),
       ("X-URI", "https://lore.kernel.org/qemu-devel/i@d/")] := by
  rw [c2_link_per_matching_recipient
    [("Message-ID", "<i@d>"), ("To", "qemu-devel@nongnu.org"), ("Cc", "x@y")]
    "<i@d>" (by decide) (by decide)]
  decide

/-- C3 counterexample: an identifier value with no angle-bracket
delimiters is not kept whole; `message_id[1:-1]` truncates it.  For the
value `abc123` the link token is `bc12`, not `abc123`. -/
theorem c3_bare_token_truncated :
    create_xuri_header [("Message-ID", "abc123"), ("To", "qemu-devel@nongnu.org")] =
      [("Message-ID", "abc123"), ("To", "qemu-devel@nongnu.org"),
       ("X-URI", "https://lore.kernel.org/qemu-devel/bc12/")] ∧
    sliceInner "abc123" ≠ "abc123" := by
  decide

/-- C3 (amended): the identifier token placed in the link is the header
value with its first and last characters removed unconditionally (Python
`message_id[1:-1]`); for the usual angle-bracket-delimited value this
strips exactly the delimiters, but a value without them loses its first
and last characters instead of being kept whole. -/
theorem c3_token_first_last_removed (t mid : String) :
    sliceInner ("<" ++ t ++ ">") = t ∧
    sliceInner mid = String.mk ((mid.data.drop 1).dropLast) :=
  ⟨sliceInner_bracketed t, rfl⟩

/-- C4: recipient resolution consults the explicit mapping table first;
only on a table miss does the vger rule apply, and then exactly when the
address ends with the archive-domain suffix, the list name being the
address with that suffix stripped; a resolved non-empty list name yields
the header value base-url/list-name/token/ (base URL
https://lore.kernel.org, with trailing slash). -/
theorem c4_resolution_table_then_vger (r mid : String) (m : Message) :
    (∀ ml, loreMlsGet r = some ml → resolveList r = some ml) ∧
    (loreMlsGet r = none → pyEndswith r vgerSuffix = true →
      resolveList r = some (pyDropRight r vgerSuffix.length) ∧
      pyDropRight r vgerSuffix.length ++ vgerSuffix = r) ∧
    (loreMlsGet r = none → pyEndswith r vgerSuffix = false →
      resolveList r = none) ∧
    (∀ ml, resolveList r = some ml → ¬ml = "" →
      xuriStep mid m r =
        m ++ [("X-URI",
          "https://lore.kernel.org/" ++ ml ++ "/" ++ sliceInner mid ++ "/")]) := by
  refine ⟨?_, ?_, ?_, ?_⟩
  · intro ml hml
    simp [resolveList, hml]
  · intro hnone hends
    exact ⟨by simp [resolveList, hnone, hends],
      pyEndswith_append r vgerSuffix hends⟩
  · intro hnone hends
    simp [resolveList, hnone, hends]
  · intro ml hml hne
    simp [xuriStep, hml, hne, addHeader, LORE_FMT]

/-- C4 witness: the address foo@vger.kernel.org misses the table, matches
the suffix rule, resolves to list name foo, and produces the expected
link. -/
theorem c4_resolution_table_then_vger_witness :
    resolveList "foo@vger.kernel.org" = some "foo" ∧
    xuriStep "<i@d>" [] "foo@vger.kernel.org" =
      [("X-URI", "https://lore.kernel.org/foo/i@d/")] := by
  have hres : resolveList "foo@vger.kernel.org" = some "foo" := by
    rw [((c4_resolution_table_then_vger "foo@vger.kernel.org" "<i@d>" []).2.1
      (by decide) (by decide)).1]
    decide
  refine ⟨hres, ?_⟩
  rw [(c4_resolution_table_then_vger "foo@vger.kernel.org" "<i@d>" []).2.2.2
    "foo" hres (by decide)]
  decide

/-- C5: a present but unparseable Date does not abort the run:
`parsedate_tz` yields no timestamp, the resulting `TypeError` from
`mktime_tz` is caught, and the X-Date header is appended with the literal
diagnostic string as its value; the pipeline then continues to the X-URI
step on the completed message. -/
theorem c5_unparseable_date_degraded (pdate : String → Option (Int × Int))
    (fdate : Int → String) (m : Message) (d : String)
    (h1 : getHeader m "Date" = some d) (h2 : ¬d = "") (h3 : pdate d = none) :
    create_xdate_header pdate fdate m = m ++ [("X-Date", xdateErrVal)] ∧
    mainTransform pdate fdate m =
      create_xuri_header (m ++ [("X-Date", xdateErrVal)]) := by
  have hstep : create_xdate_header pdate fdate m = m ++ [("X-Date", xdateErrVal)] := by
    simp only [create_xdate_header, h1, h3]
    rw [if_neg h2]
    rfl
  exact ⟨hstep, by unfold mainTransform; rw [hstep]⟩

/-- C5 witness: a concrete message whose Date value no parser accepts. -/
theorem c5_unparseable_date_degraded_witness :
    create_xdate_header (fun _ => none) (fun _ => "") [("Date", "bogus")] =
      [("Date", "bogus"), ("X-Date", xdateErrVal)] :=
  (c5_unparseable_date_degraded (fun _ => none) (fun _ => "")
    [("Date", "bogus")] "bogus" (by decide) (by decide) rfl).1

/-- C6: a message with no Date header is left unchanged by
`create_xdate_header`: no X-Date header, no error, identical header
sequence. -/
theorem c6_missing_date_noop (pdate : String → Option (Int × Int))
    (fdate : Int → String) (m : Message)
    (h : getHeader m "Date" = none) :
    create_xdate_header pdate fdate m = m := by
  simp only [create_xdate_header, h]

/-- C6 witness: a dateless two-header message passes through unchanged. -/
theorem c6_missing_date_noop_witness :
    create_xdate_header (fun _ => some (0, 0)) (fun _ => "d")
      [("From", "a"), ("Subject", "s")] = [("From", "a"), ("Subject", "s")] :=
  c6_missing_date_noop (fun _ => some (0, 0)) (fun _ => "d")
    [("From", "a"), ("Subject", "s")] (by decide)

/-- C7: a message with no Message-ID header is left unchanged by
`create_xuri_header`, whatever recipient headers it carries; this is not
an error. -/
theorem c7_missing_messageId_noop (m : Message)
    (h : getHeader m "Message-ID" = none) :
    create_xuri_header m = m := by
  simp only [create_xuri_header, h]

/-- C7 witness: a message with archive-matching recipients but no
Message-ID gains no X-URI header. -/
theorem c7_missing_messageId_noop_witness :
    create_xuri_header [("To", "qemu-devel@nongnu.org"), ("Cc", "a@vger.kernel.org")] =
      [("To", "qemu-devel@nongnu.org"), ("Cc", "a@vger.kernel.org")] :=
  c7_missing_messageId_noop
    [("To", "qemu-devel@nongnu.org"), ("Cc", "a@vger.kernel.org")] (by decide)

/-- C8: `remove_header` deletes exactly the headers whose name matches the
argument case-insensitively, keeping all other headers in their relative
order (it equals a filter on the header list), and is a no-op when no
header matches. -/
theorem c8_remove_header_filter (m : Message) (name : String) :
    remove_header m name =
      m.filter (fun h => !(lowerName h.1 == lowerName name)) ∧
    ((∀ h ∈ m, ¬lowerName h.1 = lowerName name) → remove_header m name = m) := by
  have hmain : remove_header m name =
      m.filter (fun h => !(lowerName h.1 == lowerName name)) := by
    unfold remove_header
    rw [removeHeaderLoop_spec name m.length m le_rfl, List.take_length,
      List.drop_length, List.append_nil]
  refine ⟨hmain, fun hnone => ?_⟩
  rw [hmain]
  apply List.filter_eq_self.mpr
  intro h hm
  simpa using hnone h hm

/-- C8 witness: both Message-ID spellings are deleted, the others keep
their order; a name matching nothing leaves the message unchanged. -/
theorem c8_remove_header_filter_witness :
    remove_header [("A", "1"), ("message-id", "m"), ("B", "2"), ("Message-ID", "n")]
      "Message-ID" = [("A", "1"), ("B", "2")] ∧
    remove_header [("A", "1"), ("B", "2")] "X-Gone" = [("A", "1"), ("B", "2")] := by
  refine ⟨?_, ?_⟩
  · rw [(c8_remove_header_filter
      [("A", "1"), ("message-id", "m"), ("B", "2"), ("Message-ID", "n")]
      "Message-ID").1]
    decide
  · exact (c8_remove_header_filter [("A", "1"), ("B", "2")] "X-Gone").2 (by decide)

/-- C9: for a parseable Date denoting wall-clock seconds w at zone offset
z (absolute instant w - z), the operation appends exactly one X-Date
header at the end whose value is the local-time rendering of that instant;
granting that the rendering/parsing pair of `email.utils` is sound at this
instant (`formatdate(t, localtime=True)` emits wall clock t + off at the
local offset off and `parsedate_tz` reads that back), the re-parsed X-Date
value denotes the identical absolute instant, expressed at the local
offset. -/
theorem c9_local_date_same_instant (pdate : String → Option (Int × Int))
    (fdate : Int → String) (off : Int) (m : Message) (d : String) (w z : Int)
    (h1 : getHeader m "Date" = some d) (h2 : ¬d = "")
    (h3 : pdate d = some (w, z))
    (hround : pdate (fdate (w - z)) = some (w - z + off, off)) :
    create_xdate_header pdate fdate m = m ++ [("X-Date", fdate (w - z))] ∧
    ∃ p, pdate (fdate (w - z)) = some p ∧
      mktime_tz p = mktime_tz (w, z) ∧ p.2 = off := by
  constructor
  · simp only [create_xdate_header, h1, h3]
    rw [if_neg h2]
    rfl
  · exact ⟨(w - z + off, off), hround, by simp [mktime_tz], rfl⟩

/-- C9 witness: instant 7200 read from a zone-0 date and rendered at local
offset 3600 re-parses to the same instant. -/
theorem c9_local_date_same_instant_witness :
    create_xdate_header
      (fun s => if s = "D" then some (7200, 0)
                else if s = "F" then some (10800, 3600) else none)
      (fun _ => "F") [("Date", "D")] = [("Date", "D"), ("X-Date", "F")] :=
  (c9_local_date_same_instant
    (fun s => if s = "D" then some (7200, 0)
              else if s = "F" then some (10800, 3600) else none)
    (fun _ => "F") 3600 [("Date", "D")] "D" 7200 0
    (by decide) (by decide) (by decide) (by decide)).1

/-- C10 counterexample: a Date header that is present with an empty value
defeats "appends exactly one X-Date header when a Date header is present":
the `if not date` check treats it as absent and nothing is added, even
with a parser that would succeed. -/
theorem c10_empty_date_no_header :
    (getHeader [("Date", "")] "Date").isSome = true ∧
    create_xdate_header (fun _ => some (0, 0)) (fun _ => "x") [("Date", "")] =
      [("Date", "")] ∧
    countHeader (create_xdate_header (fun _ => some (0, 0)) (fun _ => "x")
      [("Date", "")]) "X-Date" = 0 := by
  decide

/-- C10 (amended): `create_xdate_header` is a total operation (every
failure of the date conversion is caught inside it, the source's
`except` branch), and it appends exactly one X-Date header at the end when
a Date header with a non-empty value is present, none when the Date header
is absent or empty. -/
theorem c10_xdate_total (pdate : String → Option (Int × Int))
    (fdate : Int → String) (m : Message) :
    ((∃ d, getHeader m "Date" = some d ∧ ¬d = "") →
      ∃ v, create_xdate_header pdate fdate m = m ++ [("X-Date", v)]) ∧
    ((getHeader m "Date" = none ∨ getHeader m "Date" = some "") →
      create_xdate_header pdate fdate m = m) := by
  constructor
  · rintro ⟨d, h1, h2⟩
    simp only [create_xdate_header, h1]
    rw [if_neg h2]
    cases pdate d with
    | some tz => exact ⟨fdate (mktime_tz tz), rfl⟩
    | none => exact ⟨xdateErrVal, rfl⟩
  · rintro (h | h) <;> simp [create_xdate_header, h]

/-- C10 witness: a non-empty Date gets exactly one appended X-Date; a
dateless message is unchanged. -/
theorem c10_xdate_total_witness :
    (∃ v, create_xdate_header (fun _ => some (5, 2)) (fun _ => "v")
      [("Date", "D")] = [("Date", "D"), ("X-Date", v)]) ∧
    create_xdate_header (fun _ => some (5, 2)) (fun _ => "v")
      [("Subject", "s")] = [("Subject", "s")] := by
  constructor
  · obtain ⟨v, hv⟩ := (c10_xdate_total (fun _ => some (5, 2)) (fun _ => "v")
      [("Date", "D")]).1 ⟨"D", by decide, by decide⟩
    exact ⟨v, hv⟩
  · exact (c10_xdate_total (fun _ => some (5, 2)) (fun _ => "v")
      [("Subject", "s")]).2 (Or.inl (by decide))

end Lorifier
